import Mathlib

/-!
# Verification of the broom folder-quota core

Shallow embedding of the `broom` Go package (fs.go, internal.go, broom.go).
Go's `Size` is `uint64`; it is modelled as `Nat` together with explicit
`% 2^64` wrapping exactly where the Go code performs `uint64` arithmetic
(`wadd`, `wsub` below).  External collaborators (the filesystem scan,
`fsnotify`, `os.Remove`, the user-supplied strategy/callback/metadata
functions) are modelled as an explicit environment `BroomEnv`, so every
operation of the core is a pure function of the pre-state and that
environment.
-/

namespace Broom

/-- The modulus of Go's `uint64` (`type Size uint64`, internal.go line 14). -/
def W : Nat := 2 ^ 64

/-- Go `uint64` addition: `a + b` wraps modulo `2^64`. -/
def wadd (a b : Nat) : Nat := (a + b) % W

/-- Go `uint64` subtraction: `a - b` wraps modulo `2^64`. -/
def wsub (a b : Nat) : Nat := (a % W + (W - b % W)) % W

/-- One filesystem entry (`type File struct`, fs.go lines 17-25).
`CreateAt`/`UpdateAt` timestamps are modelled as integers (nanoseconds since
the epoch); `time.Before` on them is integer `<`.  `Metadata map[string]any`
is modelled as an association list of string keys and values. -/
structure File where
  Path : String
  Name : String
  IsDir : Bool
  Size : Nat
  CreateAt : Int
  UpdateAt : Int
  Metadata : List (String × String)
  deriving DecidableEq, Repr

/-- Exact (unbounded) total of the `Size` fields of a list of files.
This is the specification-side sum, used to state when the `uint64`
accumulations of the code do not overflow. -/
def sizeSum (files : List File) : Nat := (files.map (·.Size)).sum

/-- The non-directory entries of a file list, in order.  This is the filter
both built-in strategies apply while collecting the linked list into a slice
(`if f, ok := e.Value.(File); ok && !f.IsDir`, fs.go lines 99-104 and
131-136; the type assertion always succeeds on lists built by the package). -/
def nonDir (files : List File) : List File := files.filter (fun f => !f.IsDir)

/-- `calculateFolderSize` (fs.go lines 82-91): sums the sizes of the
non-directory entries with a `uint64` accumulator (`ret += v.Size`). -/
def calculateFolderSize (files : List File) : Nat :=
  files.foldl (fun ret v => if !v.IsDir then wadd ret v.Size else ret) 0

/-- The selection loop shared by both built-in strategies (fs.go lines
111-120 and 143-152), run on the already-sorted slice:

    for _, file := range filesSlice {
        if totalFreed >= bytesToFree { break }
        totalFreed += file.Size
        filesToRemove = append(filesToRemove, file)
    }

`totalFreed` is a Go `Size` (`uint64`), hence the wrapped addition. -/
def takeToFree : List File → Nat → Nat → List File
  | [], _, _ => []
  | f :: fs, totalFreed, bytesToFree =>
    if bytesToFree ≤ totalFreed then []
    else f :: takeToFree fs (wadd totalFreed f.Size) bytesToFree

/-- The comparison of the oldest-first strategy (fs.go lines 107-109):
`filesSlice[i].CreateAt.Before(filesSlice[j].CreateAt)`. -/
def createAtLt (a b : File) : Bool := decide (a.CreateAt < b.CreateAt)

/-- The comparison of the name-ascending strategy (fs.go lines 138-141):
`filesSlice[i].Name < filesSlice[j].Name`. -/
def nameLt (a b : File) : Bool := decide (a.Name < b.Name)

/-- The contract of Go's `sort.Slice(x, less)`: the result is a permutation
of the input with no adjacent pair out of order.  `sort.Slice` promises
nothing further — in particular it is documented as NOT stable — so the
built-in strategies are modelled relationally over every sorted permutation
the library may produce. -/
def IsSortSliceResult (lt : File → File → Bool) (l s : List File) : Prop :=
  s.Perm l ∧ s.Pairwise (fun a b => lt b a = false)

/-- `DEFAULT_REMOVING_STRATEGY` (fs.go lines 93-123), as the relation between
its input list, `bytesToFree`, and a possible output: collect the
non-directory files, sort them with `sort.Slice` by `CreateAt` ascending,
then run the selection loop. -/
def DEFAULT_REMOVING_STRATEGY_rel (allFiles : List File) (bytesToFree : Nat)
    (out : List File) : Prop :=
  ∃ s, IsSortSliceResult createAtLt (nonDir allFiles) s ∧
    out = takeToFree s 0 bytesToFree

/-- `NAME_BASED_REMOVING_STRATEGY` (fs.go lines 125-155): same shape, sorted
by `Name` ascending. -/
def NAME_BASED_REMOVING_STRATEGY_rel (allFiles : List File) (bytesToFree : Nat)
    (out : List File) : Prop :=
  ∃ s, IsSortSliceResult nameLt (nonDir allFiles) s ∧
    out = takeToFree s 0 bytesToFree

/-- An executable instance of `DEFAULT_REMOVING_STRATEGY`, using a stable
insertion sort for the `sort.Slice` step.  Go's `sort.Slice` may order ties
differently; every claim settled through this function is independent of the
tie order, and `DEFAULT_REMOVING_STRATEGY_fn_admissible` below shows its
output is one of the outputs admitted by the relational model. -/
def DEFAULT_REMOVING_STRATEGY_fn (allFiles : List File) (bytesToFree : Nat) :
    List File :=
  takeToFree
    ((nonDir allFiles).insertionSort (fun a b => a.CreateAt ≤ b.CreateAt))
    0 bytesToFree

/-- Executable instance of `NAME_BASED_REMOVING_STRATEGY` (same caveats as
`DEFAULT_REMOVING_STRATEGY_fn`). -/
def NAME_BASED_REMOVING_STRATEGY_fn (allFiles : List File) (bytesToFree : Nat) :
    List File :=
  takeToFree
    ((nonDir allFiles).insertionSort (fun a b => a.Name ≤ b.Name))
    0 bytesToFree

/-- `DeleteFiles` (fs.go lines 156-168).  `removeFails f` models the outcome
of `os.Remove(f.Path)`.  Returns the files physically removed (in order) and
whether an error was returned; directories are skipped (`continue`), and on
the first failing removal the function returns the error immediately. -/
def DeleteFiles (removeFails : File → Bool) : List File → List File × Bool
  | [] => ([], false)
  | f :: fs =>
    if f.IsDir then DeleteFiles removeFails fs
    else if removeFails f then ([], true)
    else
      let r := DeleteFiles removeFails fs
      (f :: r.1, r.2)

/-- Errors returned by broom operations, tagged by their source so that the
failure step of `initialize` is observable (broom.go lines 15-20 plus the
wrapped I/O errors of internal.go). -/
inductive BroomError where
  | folderExist
  | folderNotExist
  | scanFailed
  | watcherFailed
  | watchAddFailed
  | deleteFailed
  deriving DecidableEq, Repr

/-- `type BroomFolder struct` (internal.go lines 46-53).  The `parent`
back-pointer is replaced by passing the `Broom`'s configuration
(`BroomEnv`) explicitly.  The `fsnotify` watcher handle is modelled by its
observable state: `none` = no watcher ever created, `some true` = open
watcher, `some false` = watcher created then closed. -/
structure BroomFolder where
  Location : String
  MaxSize : Nat
  CurrentSize : Nat
  list : Option (List File)
  watcher : Option Bool
  deriving DecidableEq, Repr

/-- `isInitialized` (internal.go lines 61-63): `bf.list != nil`. -/
def BroomFolder.isInitialized (bf : BroomFolder) : Bool := bf.list.isSome

/-- `deInit` (internal.go lines 80-90): no-op when not initialized; otherwise
closes the watcher if present and clears the list.  Note the watcher pointer
itself is kept (only `Close`d), hence `Option.map`. -/
def BroomFolder.deInit (bf : BroomFolder) : BroomFolder :=
  if !bf.isInitialized then bf
  else { bf with watcher := bf.watcher.map (fun _ => false), list := none }

/-- The environment of external collaborators and `Broom`-level
configuration a folder operation runs against:
`collect` is the outcome of `collectFiles(location, exts, false)` (fs.go
lines 198-247); `newWatcherOk` / `watchAddOk` the outcomes of
`fsnotify.NewWatcher()` and `watcher.Add(location)`; `removeFails` the
per-file outcome of `os.Remove`; `RemovingStrategy`, `onRemoveCb` (modelled
by whether a callback is configured) and `metaDataReader` the function
fields of `Broom` (broom.go lines 35-45). -/
structure BroomEnv where
  collect : String → Except Unit (List File)
  newWatcherOk : Bool
  watchAddOk : String → Bool
  removeFails : File → Bool
  RemovingStrategy : Option (List File → Nat → List File)
  onRemoveCb : Bool
  metaDataReader : Option (BroomFolder → File → List (String × String))

/-- `sortFilesByCreateTime` (fs.go lines 249-254): sorts by `CreateAt`
ascending via `sort.Slice`; modelled with a stable insertion sort (the tie
order is irrelevant to every claim settled through `scan`). -/
def sortFilesByCreateTime (files : List File) : List File :=
  files.insertionSort (fun a b => a.CreateAt ≤ b.CreateAt)

/-- `scan` (internal.go lines 197-215): runs `collectFiles`; on error the
folder is returned unchanged with the error.  On success `CurrentSize`
becomes the `uint64` total of the non-directory sizes (the inline loop at
lines 204-209 is exactly `calculateFolderSize`) and `list` the
creation-time-sorted files. -/
def BroomFolder.scan (bf : BroomFolder) (ev : BroomEnv) :
    BroomFolder × Option BroomError :=
  match ev.collect bf.Location with
  | .error _ => (bf, some .scanFailed)
  | .ok files =>
    ({ bf with
        CurrentSize := calculateFolderSize files
        list := some (sortFilesByCreateTime files) }, none)

/-- `fetchMetadata` (internal.go lines 91-118).  The function returns
immediately when the folder is initialized (lines 92-94) — which is always
the case at its only call site, since `initialize` calls it after `scan`
has just populated `bf.list`.  Were the loop ever reached, each iteration
copies the element by value (`file := e.Value.(File)`), resets the copy's
metadata, and hands `&file` (the copy) to the reader in a goroutine; the
copy is never written back into `bf.list`, so the stored records are
unchanged in every case (moreover `bf.list` is nil on the non-initialized
path, so the loop would dereference nil).  The model therefore returns the
folder unchanged on all paths, mirroring the guard structure. -/
def BroomFolder.fetchMetadata (bf : BroomFolder) (ev : BroomEnv) : BroomFolder :=
  if bf.isInitialized then bf
  else
    match ev.metaDataReader with
    | none => bf
    | some _ => bf

/-- The observable outcome of `check` (internal.go lines 218-237): the
folder after the call, whether an error was returned, whether the on-remove
callback was invoked, the file list returned by the strategy (`rms`), and
the files physically removed by `DeleteFiles`. -/
structure CheckResult where
  folder : BroomFolder
  err : Bool
  cbInvoked : Bool
  rms : List File
  removed : List File
  deriving DecidableEq, Repr

/-- `check` (internal.go lines 218-237):

    if !bf.isInitialized() { return nil }
    if bf.MaxSize != 0 && bf.MaxSize < bf.CurrentSize {
        if br.RemovingStrategy != nil {
            rms := br.RemovingStrategy(bf, bf.list, bf.CurrentSize-bf.MaxSize)
            err := DeleteFiles(rms)
            if br.onRemoveCb != nil { br.onRemoveCb(bf, rms) }
            if err == nil { bf.CurrentSize -= calculateFolderSize(rms) }
            return err
        }
    }

Note the callback runs after `DeleteFiles` regardless of its error, and the
`uint64` decrement happens only when `err == nil`. -/
def BroomFolder.check (bf : BroomFolder) (ev : BroomEnv) : CheckResult :=
  if !bf.isInitialized then ⟨bf, false, false, [], []⟩
  else if bf.MaxSize ≠ 0 ∧ bf.MaxSize < bf.CurrentSize then
    match ev.RemovingStrategy with
    | some strat =>
      let rms := strat (bf.list.getD []) (wsub bf.CurrentSize bf.MaxSize)
      let del := DeleteFiles ev.removeFails rms
      let bf' :=
        if del.2 then bf
        else { bf with CurrentSize := wsub bf.CurrentSize (calculateFolderSize rms) }
      ⟨bf', del.2, ev.onRemoveCb, rms, del.1⟩
    | none => ⟨bf, false, false, [], []⟩
  else ⟨bf, false, false, [], []⟩

/-- `initialize` (internal.go lines 168-196), renamed `initFolder` here:
no-op when already initialized; otherwise scan, create the watcher, start
the event pump (`watch`, pure logging — no state effect), subscribe the
location, run `fetchMetadata`, then `check`.  Only the `check` failure path
calls `deInit`; the watcher-creation and subscription failure paths return
with `bf.list` still populated. -/
def BroomFolder.initFolder (bf : BroomFolder) (ev : BroomEnv) :
    BroomFolder × Option BroomError :=
  if bf.isInitialized then (bf, none)
  else
    match bf.scan ev with
    | (bf1, some e) => (bf1, some e)
    | (bf1, none) =>
      if !ev.newWatcherOk then (bf1, some .watcherFailed)
      else
        let bf2 := { bf1 with watcher := some true }
        if !ev.watchAddOk bf.Location then
          ({ bf2 with watcher := some false }, some .watchAddFailed)
        else
          let bf3 := bf2.fetchMetadata ev
          let R := bf3.check ev
          if R.err then (R.folder.deInit, some .deleteFailed) else (R.folder, none)

/-- The operation tags of the command queue (operation.go). -/
inductive Operation where
  | OperationAdd
  | OperationRemove
  | OperationGet
  | OperationPing
  | OperationRecheck
  deriving DecidableEq, Repr

/-- `type broomOperation struct` (operation.go): the tag plus the folder
descriptor fields the handler reads (`op.folder.Location`,
`op.folder.MaxSize`). -/
structure broomOperation where
  op : Operation
  Location : String
  MaxSize : Nat
  deriving DecidableEq, Repr

/-- `type broomOperationResponse struct` (operation.go). -/
structure broomOperationResponse where
  err : Option BroomError
  data : BroomFolder
  deriving DecidableEq, Repr

/-- The zero value of `BroomFolder` (the `data` field of a response that
does not carry a folder). -/
def emptyFolder : BroomFolder :=
  { Location := "", MaxSize := 0, CurrentSize := 0, list := none, watcher := none }

/-- The registry-owning state of `Broom` (broom.go lines 35-45):
`folders map[string]*BroomFolder`, modelled as an association list keyed by
location (the key invariant — at most one entry per location — makes the
representations interchangeable). -/
structure Broom where
  folders : List (String × BroomFolder)
  deriving DecidableEq, Repr

/-- Replacing the folder stored under `loc` — the effect of the in-place
mutation of `*got` through the map's pointer. -/
def updateFolder (folders : List (String × BroomFolder)) (loc : String)
    (f : BroomFolder) : List (String × BroomFolder) :=
  folders.map (fun p => if p.1 = loc then (loc, f) else p)

/-- `handleQueue` (internal.go lines 239-302), one queued command:

  * `OperationAdd`: duplicate location → `ErrFolderExist`, registry
    untouched; otherwise store `&op.folder` (location and max size, zero
    value elsewhere).
  * `OperationGet`: unknown location → `ErrFolderNotExist`; otherwise
    initialize if needed (`initialize` itself no-ops when initialized) and
    reply with the (possibly updated) folder value `*got`.
  * `OperationPing`: reply nil.
  * `OperationRemove`: unknown → `ErrFolderNotExist`; otherwise `deInit`
    and delete the entry (the deinitialized folder is dropped from the
    registry, so only the deletion is observable).
  * `OperationRecheck`: unknown → `ErrFolderNotExist`; otherwise `deInit`
    then `initialize`, replying with the error. -/
def Broom.handleQueue (br : Broom) (ev : BroomEnv) (opr : broomOperation) :
    Broom × broomOperationResponse :=
  match opr.op with
  | .OperationAdd =>
    match br.folders.lookup opr.Location with
    | some _ => (br, ⟨some .folderExist, emptyFolder⟩)
    | none =>
      ({ folders := (opr.Location,
          { emptyFolder with Location := opr.Location, MaxSize := opr.MaxSize })
          :: br.folders }, ⟨none, emptyFolder⟩)
  | .OperationGet =>
    match br.folders.lookup opr.Location with
    | none => (br, ⟨some .folderNotExist, emptyFolder⟩)
    | some got =>
      let r := got.initFolder ev
      ({ folders := updateFolder br.folders opr.Location r.1 }, ⟨r.2, r.1⟩)
  | .OperationPing => (br, ⟨none, emptyFolder⟩)
  | .OperationRemove =>
    match br.folders.lookup opr.Location with
    | none => (br, ⟨some .folderNotExist, emptyFolder⟩)
    | some _ =>
      ({ folders := br.folders.filter (fun p => p.1 != opr.Location) },
        ⟨none, emptyFolder⟩)
  | .OperationRecheck =>
    match br.folders.lookup opr.Location with
    | none => (br, ⟨some .folderNotExist, emptyFolder⟩)
    | some f =>
      let r := (f.deInit).initFolder ev
      ({ folders := updateFolder br.folders opr.Location r.1 }, ⟨r.2, emptyFolder⟩)

/-- Processing a batch of pending commands in arrival order (the
`case op := <-br.operationQueue: br.handleQueue(op)` arm of `handle`,
internal.go lines 315-328). -/
def Broom.handleOps (br : Broom) (ev : BroomEnv) :
    List broomOperation → Broom
  | [] => br
  | opr :: rest => ((br.handleQueue ev opr).1).handleOps ev rest

/-- `handle(wait, ctx)` (internal.go lines 315-328) with the sweep timer
firing after the pending commands: processes the commands, then the `<-sig`
arm returns `false` — without touching any folder.  (The `<-ctx.Done()` arm
returns `true`; cancellation is not needed for the claims below.) -/
def Broom.handle (br : Broom) (ev : BroomEnv) (pending : List broomOperation) :
    Broom × Bool :=
  (br.handleOps ev pending, false)

/-- One sweep-timer tick as executed by `Broom.loop` (internal.go lines
348-356).  The entire loop body is

    for { if br.handle(br.sweepTime, ctx) { goto exit } }

so when `handle` returns `false` (timer fired — here with no pending
commands, the sweep case of the claims) the loop immediately calls `handle`
again: no folder is walked, scanned, or checked in between.  The
commented-out `checkFolder` (internal.go lines 330-346) is dead code. -/
def Broom.sweepTick (br : Broom) (ev : BroomEnv) : Broom := (br.handle ev []).1

/-- `n` consecutive sweep-timer ticks with an empty command queue. -/
def Broom.sweepTicks (br : Broom) (ev : BroomEnv) : Nat → Broom
  | 0 => br
  | n + 1 => (br.sweepTick ev).sweepTicks ev n

/-! ## Concrete fixtures used by counterexamples and witnesses -/

/-- A benign environment: scans succeed (empty directory), watcher and
subscription succeed, every `os.Remove` succeeds, default strategy, no
callback, no metadata reader. -/
def evBase : BroomEnv :=
  { collect := fun _ => .ok []
    newWatcherOk := true
    watchAddOk := fun _ => true
    removeFails := fun _ => false
    RemovingStrategy := some DEFAULT_REMOVING_STRATEGY_fn
    onRemoveCb := false
    metaDataReader := none }

/-- A 2^63-byte file, creation time 0 (sizes of this magnitude are legal
`uint64` values of the `Size` field). -/
def cexA : File :=
  { Path := "/d/a", Name := "a", IsDir := false, Size := 2 ^ 63,
    CreateAt := 0, UpdateAt := 0, Metadata := [] }

/-- A (2^63+5)-byte file, creation time 1. -/
def cexB : File :=
  { Path := "/d/b", Name := "b", IsDir := false, Size := 2 ^ 63 + 5,
    CreateAt := 1, UpdateAt := 0, Metadata := [] }

/-- A folder exactly as `scan` would leave it for the listing
`[cexA, cexB]`: `CurrentSize = calculateFolderSize [cexA, cexB] = 5`
(the `uint64` total wraps), quota 3. -/
def bfCex : BroomFolder :=
  { Location := "/d", MaxSize := 3, CurrentSize := calculateFolderSize [cexA, cexB],
    list := some [cexA, cexB], watcher := some true }

/-- Three 2^63-byte files, creation times 0, 1, 2 — input of the C3
counterexample. -/
def cexX : File :=
  { Path := "/d/x", Name := "x", IsDir := false, Size := 2 ^ 63,
    CreateAt := 0, UpdateAt := 0, Metadata := [] }

def cexY : File :=
  { Path := "/d/y", Name := "y", IsDir := false, Size := 2 ^ 63,
    CreateAt := 1, UpdateAt := 0, Metadata := [] }

def cexZ : File :=
  { Path := "/d/z", Name := "z", IsDir := false, Size := 2 ^ 63,
    CreateAt := 2, UpdateAt := 0, Metadata := [] }

/-- A 5-byte file, creation time 0 (witness-sized). -/
def wfA : File :=
  { Path := "/w/a", Name := "a", IsDir := false, Size := 5,
    CreateAt := 0, UpdateAt := 0, Metadata := [] }

/-- A 10-byte file, creation time 1. -/
def wfB : File :=
  { Path := "/w/b", Name := "b", IsDir := false, Size := 10,
    CreateAt := 2, UpdateAt := 0, Metadata := [] }

/-- A directory entry. -/
def dirD : File :=
  { Path := "/w/sub", Name := "sub", IsDir := true, Size := 40,
    CreateAt := 1, UpdateAt := 0, Metadata := [] }

/-- Initialized folder over quota with realistic (non-wrapping) sizes:
`CurrentSize = 15`, quota 8. -/
def bfW : BroomFolder :=
  { Location := "/w", MaxSize := 8, CurrentSize := calculateFolderSize [wfA, wfB],
    list := some [wfA, wfB], watcher := some true }

/-- Environment in which every `os.Remove` fails and an on-remove callback
is configured. -/
def evDelFail : BroomEnv :=
  { evBase with removeFails := (fun _ => true), onRemoveCb := true }

/-- A never-initialized folder with unlimited quota. -/
def bfUninit : BroomFolder :=
  { Location := "/u", MaxSize := 0, CurrentSize := 0, list := none, watcher := none }

/-- A 7-byte file found by the scan of the C5/C7 scenarios. -/
def wfF : File :=
  { Path := "/u/f", Name := "f", IsDir := false, Size := 7,
    CreateAt := 0, UpdateAt := 0, Metadata := [] }

/-- Environment whose scan finds `[wfF]` but where `fsnotify.NewWatcher()`
fails. -/
def evWatchFail : BroomEnv :=
  { evBase with collect := (fun _ => .ok [wfF]), newWatcherOk := false }

/-- Environment whose scan fails (e.g. the directory was removed). -/
def evScanFail : BroomEnv :=
  { evBase with collect := fun _ => .error () }

/-- Fully successful environment with a metadata reader configured that
attaches `("k", "v")` to every file. -/
def evReader : BroomEnv :=
  { evBase with
    collect := (fun _ => .ok [wfF])
    metaDataReader := some (fun _ _ => [("k", "v")]) }

/-- The same environment without the reader (for the independence part of
the C7 theorem). -/
def evNoReader : BroomEnv :=
  { evBase with collect := fun _ => .ok [wfF] }

/-- A registry already holding a folder at location `"/d"` with quota 9. -/
def brReg : Broom :=
  { folders := [("/d",
      { Location := "/d", MaxSize := 9, CurrentSize := 0, list := none, watcher := none })] }

/-! ## Supporting lemmas -/

theorem W_pos : 0 < W := by
  simp [W]

theorem wadd_eq_add {a b : Nat} (h : a + b < W) : wadd a b = a + b := by
  simp [wadd, Nat.mod_eq_of_lt h]

theorem wsub_eq_sub {a b : Nat} (hba : b ≤ a) (ha : a < W) : wsub a b = a - b := by
  have hb : b < W := lt_of_le_of_lt hba ha
  unfold wsub
  rw [Nat.mod_eq_of_lt ha, Nat.mod_eq_of_lt hb]
  have h1 : a + (W - b) = W + (a - b) := by omega
  rw [h1, Nat.add_mod_left, Nat.mod_eq_of_lt (by omega)]

theorem sizeSum_nil : sizeSum [] = 0 := rfl

theorem sizeSum_cons (f : File) (l : List File) :
    sizeSum (f :: l) = f.Size + sizeSum l := by
  simp [sizeSum]

theorem sizeSum_append (l₁ l₂ : List File) :
    sizeSum (l₁ ++ l₂) = sizeSum l₁ + sizeSum l₂ := by
  simp [sizeSum]

theorem sizeSum_take_le (l : List File) (n : Nat) :
    sizeSum (l.take n) ≤ sizeSum l := by
  conv_rhs => rw [← List.take_append_drop n l]
  rw [sizeSum_append]
  exact Nat.le_add_right _ _

theorem sizeSum_perm {s l : List File} (h : s.Perm l) : sizeSum s = sizeSum l :=
  List.Perm.sum_eq (h.map (·.Size))

theorem mem_nonDir {f : File} {l : List File} :
    f ∈ nonDir l ↔ f ∈ l ∧ f.IsDir = false := by
  simp [nonDir]

theorem nonDir_eq_self {l : List File} (h : ∀ f ∈ l, f.IsDir = false) :
    nonDir l = l := by
  unfold nonDir
  rw [List.filter_eq_self]
  intro f hf
  simp [h f hf]

theorem calculateFolderSize_general (l : List File) :
    ∀ acc : Nat, acc < W →
      l.foldl (fun ret v => if !v.IsDir then wadd ret v.Size else ret) acc =
        (acc + sizeSum (nonDir l)) % W := by
  induction l with
  | nil =>
    intro acc hacc
    simp [nonDir, sizeSum, Nat.mod_eq_of_lt hacc]
  | cons f fs ih =>
    intro acc hacc
    by_cases hd : f.IsDir
    · have h1 : nonDir (f :: fs) = nonDir fs := by simp [nonDir, hd]
      simp only [List.foldl_cons, hd]
      simpa [h1] using ih acc hacc
    · have h1 : nonDir (f :: fs) = f :: nonDir fs := by simp [nonDir, hd]
      simp only [List.foldl_cons, hd]
      rw [show (if !false then wadd acc f.Size else acc) = wadd acc f.Size from rfl]
      rw [ih (wadd acc f.Size) (Nat.mod_lt _ W_pos)]
      rw [h1, sizeSum_cons, wadd]
      rw [Nat.mod_add_mod]
      ring_nf

theorem calculateFolderSize_eq_mod (l : List File) :
    calculateFolderSize l = sizeSum (nonDir l) % W := by
  unfold calculateFolderSize
  rw [calculateFolderSize_general l 0 W_pos, Nat.zero_add]

theorem calculateFolderSize_eq {l : List File} (h : sizeSum (nonDir l) < W) :
    calculateFolderSize l = sizeSum (nonDir l) := by
  rw [calculateFolderSize_eq_mod, Nat.mod_eq_of_lt h]

theorem calculateFolderSize_lt_W (l : List File) : calculateFolderSize l < W := by
  rw [calculateFolderSize_eq_mod]
  exact Nat.mod_lt _ W_pos

theorem takeToFree_subset (b : Nat) :
    ∀ (s : List File) (acc : Nat), takeToFree s acc b ⊆ s := by
  intro s
  induction s with
  | nil => intro acc; simp [takeToFree]
  | cons f fs ih =>
    intro acc
    unfold takeToFree
    by_cases h : b ≤ acc
    · simp [h]
    · simp only [if_neg h]
      exact List.cons_subset_cons f (ih _)

/-- The selection loop in the overflow-free regime: the result is a front
segment `s.take k`; every strictly shorter front segment sums below
`bytesToFree`; and if the loop stopped before the end of the slice, the
selected segment reaches `bytesToFree`. -/
theorem takeToFree_spec (b : Nat) :
    ∀ (s : List File) (acc : Nat), acc + sizeSum s < W →
      ∃ k, k ≤ s.length ∧ takeToFree s acc b = s.take k ∧
        (∀ j, j < k → acc + sizeSum (s.take j) < b) ∧
        (k < s.length → b ≤ acc + sizeSum (s.take k)) := by
  intro s
  induction s with
  | nil =>
    intro acc _
    exact ⟨0, Nat.le_refl _, rfl, by omega, by simp⟩
  | cons f fs ih =>
    intro acc hW
    rw [sizeSum_cons] at hW
    by_cases h : b ≤ acc
    · refine ⟨0, Nat.zero_le _, ?_, by omega, ?_⟩
      · unfold takeToFree; simp [h]
      · intro _; simpa [sizeSum_nil] using h
    · have hadd : wadd acc f.Size = acc + f.Size := wadd_eq_add (by omega)
      obtain ⟨k, hk, heq, hlow, hhigh⟩ := ih (acc + f.Size) (by omega)
      refine ⟨k + 1, by simpa using hk, ?_, ?_, ?_⟩
      · unfold takeToFree
        simp only [if_neg h, hadd, heq, List.take_succ_cons]
      · intro j hj
        cases j with
        | zero => simpa [sizeSum_nil] using lt_of_not_le h
        | succ j' =>
          have := hlow j' (by omega)
          rw [List.take_succ_cons, sizeSum_cons]
          omega
      · intro hlen
        have := hhigh (by simpa using hlen)
        rw [List.take_succ_cons, sizeSum_cons]
        omega

/-- The common shape of an admissible output of either built-in strategy,
extracted from the relational model. -/
theorem strategy_output_shape {l out : List File} {b : Nat}
    (hadm : DEFAULT_REMOVING_STRATEGY_rel l b out ∨
      NAME_BASED_REMOVING_STRATEGY_rel l b out) :
    ∃ s, s.Perm (nonDir l) ∧ out = takeToFree s 0 b := by
  rcases hadm with ⟨s, ⟨hp, _⟩, hout⟩ | ⟨s, ⟨hp, _⟩, hout⟩ <;> exact ⟨s, hp, hout⟩

/-- In the overflow-free regime, an admissible strategy output is a front
segment of a sorted permutation `s` of the non-directory files, with the
minimality and coverage facts of `takeToFree_spec`. -/
theorem strategy_output_facts {l out : List File} {b : Nat}
    (hW : sizeSum (nonDir l) < W)
    (hadm : DEFAULT_REMOVING_STRATEGY_rel l b out ∨
      NAME_BASED_REMOVING_STRATEGY_rel l b out) :
    ∃ s k, s.Perm (nonDir l) ∧ sizeSum s = sizeSum (nonDir l) ∧
      out = s.take k ∧ k ≤ s.length ∧
      (∀ j, j < k → sizeSum (s.take j) < b) ∧
      (k < s.length → b ≤ sizeSum (s.take k)) := by
  obtain ⟨s, hp, hout⟩ := strategy_output_shape hadm
  have hsum : sizeSum s = sizeSum (nonDir l) := sizeSum_perm hp
  obtain ⟨k, hk, heq, hlow, hhigh⟩ :=
    takeToFree_spec b s 0 (by simpa [hsum] using hW)
  exact ⟨s, k, hp, hsum, hout.trans heq, hk,
    fun j hj => by simpa using hlow j hj,
    fun hlen => by simpa using hhigh hlen⟩

/-- Every member of an admissible strategy output is a non-directory member
of the input list. -/
theorem strategy_output_nonDir {l out : List File} {b : Nat}
    (hadm : DEFAULT_REMOVING_STRATEGY_rel l b out ∨
      NAME_BASED_REMOVING_STRATEGY_rel l b out) :
    ∀ f ∈ out, f ∈ l ∧ f.IsDir = false := by
  obtain ⟨s, hp, hout⟩ := strategy_output_shape hadm
  intro f hf
  have hfs : f ∈ s := takeToFree_subset b s 0 (hout ▸ hf)
  exact mem_nonDir.mp (hp.mem_iff.mp hfs)

/-- The executable instance is admissible: one of the outputs the
relational model of `DEFAULT_REMOVING_STRATEGY` allows. -/
theorem DEFAULT_REMOVING_STRATEGY_fn_admissible (l : List File) (b : Nat) :
    DEFAULT_REMOVING_STRATEGY_rel l b (DEFAULT_REMOVING_STRATEGY_fn l b) := by
  refine ⟨(nonDir l).insertionSort (fun a b => a.CreateAt ≤ b.CreateAt),
    ⟨List.perm_insertionSort _ _, ?_⟩, rfl⟩
  have : IsTotal File (fun a b => a.CreateAt ≤ b.CreateAt) := ⟨fun _ _ => le_total _ _⟩
  have : IsTrans File (fun a b => a.CreateAt ≤ b.CreateAt) := ⟨fun _ _ _ => le_trans⟩
  have hs := List.sorted_insertionSort
    (r := fun a b : File => a.CreateAt ≤ b.CreateAt) (nonDir l)
  refine hs.imp ?_
  intro a b h
  simpa [createAtLt, decide_eq_false_iff_not, not_lt] using h

/-- The executable instance of the name-ascending strategy is admissible. -/
theorem NAME_BASED_REMOVING_STRATEGY_fn_admissible (l : List File) (b : Nat) :
    NAME_BASED_REMOVING_STRATEGY_rel l b (NAME_BASED_REMOVING_STRATEGY_fn l b) := by
  refine ⟨(nonDir l).insertionSort (fun a b => a.Name ≤ b.Name),
    ⟨List.perm_insertionSort _ _, ?_⟩, rfl⟩
  have : IsTotal File (fun a b => a.Name ≤ b.Name) := ⟨fun _ _ => le_total _ _⟩
  have : IsTrans File (fun a b => a.Name ≤ b.Name) := ⟨fun _ _ _ => le_trans⟩
  have hs := List.sorted_insertionSort
    (r := fun a b : File => a.Name ≤ b.Name) (nonDir l)
  refine hs.imp ?_
  intro a b h
  simpa [nameLt, decide_eq_false_iff_not, not_lt] using h

/-- Unfolding of `check` on an initialized folder over its quota with a
strategy configured, component by component. -/
theorem check_eq_of_over {bf : BroomFolder} {ev : BroomEnv} {l : List File}
    {strat : List File → Nat → List File}
    (hlist : bf.list = some l)
    (hmax : bf.MaxSize ≠ 0)
    (hover : bf.MaxSize < bf.CurrentSize)
    (hstrat : ev.RemovingStrategy = some strat) :
    (bf.check ev).rms = strat l (wsub bf.CurrentSize bf.MaxSize)
    ∧ (bf.check ev).err =
        (DeleteFiles ev.removeFails (strat l (wsub bf.CurrentSize bf.MaxSize))).2
    ∧ (bf.check ev).cbInvoked = ev.onRemoveCb
    ∧ ((bf.check ev).err = true → (bf.check ev).folder = bf)
    ∧ ((bf.check ev).err = false → (bf.check ev).folder =
        { bf with CurrentSize := wsub bf.CurrentSize (calculateFolderSize (strat l (wsub bf.CurrentSize bf.MaxSize))) }) := by
  unfold BroomFolder.check
  rw [hstrat]
  simp only [BroomFolder.isInitialized, hlist, Option.isSome_some, Bool.not_true,
    Bool.false_eq_true, if_false, Option.getD_some]
  rw [if_pos ⟨hmax, hover⟩]
  dsimp only
  refine ⟨rfl, rfl, rfl, ?_, ?_⟩
  · intro herr
    simp [herr]
  · intro herr
    simp [herr]

/-- `check` is a no-op when the folder is initialized but not over a
nonzero quota. -/
theorem check_eq_of_not_over {bf : BroomFolder} {ev : BroomEnv} {l : List File}
    (hlist : bf.list = some l)
    (hnot : ¬ (bf.MaxSize ≠ 0 ∧ bf.MaxSize < bf.CurrentSize)) :
    bf.check ev = ⟨bf, false, false, [], []⟩ := by
  unfold BroomFolder.check
  simp only [BroomFolder.isInitialized, hlist, Option.isSome_some, Bool.not_true,
    Bool.false_eq_true, if_false, if_neg hnot]

/-- `check` never touches `list` or `watcher`. -/
theorem check_preserves_list_watcher (bf : BroomFolder) (ev : BroomEnv) :
    (bf.check ev).folder.list = bf.list ∧ (bf.check ev).folder.watcher = bf.watcher := by
  unfold BroomFolder.check
  split
  · exact ⟨rfl, rfl⟩
  · split
    · split
      · dsimp only
        constructor <;> (split <;> rfl)
      · exact ⟨rfl, rfl⟩
    · exact ⟨rfl, rfl⟩

/-- `deInit` on an initialized folder: the list is cleared and any watcher
is closed. -/
theorem deInit_of_initialized {bf : BroomFolder} (h : bf.list.isSome) :
    bf.deInit.list = none ∧ bf.deInit.watcher = bf.watcher.map (fun _ => false) := by
  unfold BroomFolder.deInit
  simp [BroomFolder.isInitialized, h]

theorem not_initialized_list_none {bf : BroomFolder}
    (h : ¬ bf.isInitialized = true) : bf.list = none := by
  unfold BroomFolder.isInitialized at h
  cases hl : bf.list with
  | none => rfl
  | some l => rw [hl] at h; simp at h

theorem fetchMetadata_of_initialized {bf : BroomFolder} {ev : BroomEnv}
    (h : bf.isInitialized = true) : bf.fetchMetadata ev = bf := by
  unfold BroomFolder.fetchMetadata
  rw [if_pos h]

/-! ## Claim theorems -/

/-- C1: the claim says every sweep-timer tick makes the actor loop invoke
`check()` on every registered folder.  In the code (`Broom.loop`,
internal.go lines 348-356) the loop body is only
`if br.handle(br.sweepTime, ctx) { goto exit }`, so a timer tick merely
causes `handle` to be called again: after any number of ticks with no
pending commands the registry — every folder included, an over-quota one in
particular — is exactly the pre-state, and no folder's `check` has run.
The repository's own test (`TestRealFileDeletionAfterSizeLimit`) relies on
sweep-driven cleanup, so this is a code bug, which this theorem exhibits. -/
theorem sweep_tick_performs_no_check (br : Broom) (ev : BroomEnv) (n : Nat) :
    br.sweepTicks ev n = br := by
  induction n generalizing br with
  | zero => rfl
  | succ n ih => exact ih _

/-- C7: code bug.  The claim (and the doc comment of `MetadateReader`,
broom.go lines 29-30: the metadata "will be saved and user can read it")
says that after a successful `initialize` every stored file record carries
the reader's metadata.  In the code `fetchMetadata` (internal.go lines
91-118) returns immediately because `initialize` calls it after `scan` has
already populated `bf.list` (so `isInitialized()` is true), and even
otherwise each goroutine mutates a by-value copy of the element that is
never written back.  Concretely: with a reader attaching `("k", "v")`,
initialization succeeds, every stored record's metadata is empty, and the
resulting folder is identical to the one obtained with no reader at all. -/
theorem metadata_reader_has_no_effect :
    (bfUninit.initFolder evReader).2 = none
    ∧ (∀ f ∈ ((bfUninit.initFolder evReader).1.list.getD []), f.Metadata = [])
    ∧ (bfUninit.initFolder evReader).1 = (bfUninit.initFolder evNoReader).1 := by
  decide

/-- C8: confirmed.  `AddFolder` on an already-registered location answers
with the folder-exists error and leaves the registry untouched, so a
subsequent lookup still returns the original folder (original `MaxSize`
included) and the at-most-one-folder-per-location invariant is preserved
(`Broom.handleQueue`, `OperationAdd` case, internal.go lines 242-252). -/
theorem addFolder_duplicate_unchanged (br : Broom) (ev : BroomEnv)
    (loc : String) (m : Nat) (f0 : BroomFolder)
    (h : br.folders.lookup loc = some f0) :
    (br.handleQueue ev ⟨.OperationAdd, loc, m⟩).2.err = some .folderExist
    ∧ (br.handleQueue ev ⟨.OperationAdd, loc, m⟩).1 = br
    ∧ (br.handleQueue ev ⟨.OperationAdd, loc, m⟩).1.folders.lookup loc = some f0 := by
  unfold Broom.handleQueue
  simp [h]

theorem addFolder_duplicate_unchanged_witness :
    (brReg.handleQueue evBase ⟨.OperationAdd, "/d", 77⟩).2.err = some .folderExist
    ∧ (brReg.handleQueue evBase ⟨.OperationAdd, "/d", 77⟩).1 = brReg
    ∧ (brReg.handleQueue evBase ⟨.OperationAdd, "/d", 77⟩).1.folders.lookup "/d" =
        some { Location := "/d", MaxSize := 9, CurrentSize := 0,
               list := none, watcher := none } :=
  addFolder_duplicate_unchanged brReg evBase "/d" 77 _ (by decide)

/-- C9: confirmed.  No output either built-in strategy can produce contains
a directory entry, and `DeleteFiles` never physically removes a directory
entry even when a (custom) strategy hands it one. -/
theorem no_directory_selected_or_deleted :
    (∀ l b out, DEFAULT_REMOVING_STRATEGY_rel l b out → ∀ f ∈ out, f.IsDir = false)
    ∧ (∀ l b out, NAME_BASED_REMOVING_STRATEGY_rel l b out → ∀ f ∈ out, f.IsDir = false)
    ∧ (∀ (rf : File → Bool) (l : List File), ∀ f ∈ (DeleteFiles rf l).1, f.IsDir = false) := by
  refine ⟨?_, ?_, ?_⟩
  · intro l b out hadm f hf
    exact (strategy_output_nonDir (Or.inl hadm) f hf).2
  · intro l b out hadm f hf
    exact (strategy_output_nonDir (Or.inr hadm) f hf).2
  · intro rf l
    induction l with
    | nil => intro f hf; simp [DeleteFiles] at hf
    | cons g gs ih =>
      intro f hf
      unfold DeleteFiles at hf
      by_cases hd : g.IsDir = true
      · rw [if_pos hd] at hf
        exact ih f hf
      · rw [if_neg hd] at hf
        by_cases hr : rf g = true
        · rw [if_pos hr] at hf
          simp at hf
        · rw [if_neg hr] at hf
          simp only [List.mem_cons] at hf
          rcases hf with rfl | hf
          · simpa using hd
          · exact ih f hf

theorem no_directory_selected_or_deleted_witness :
    wfA.IsDir = false ∧ wfB.IsDir = false :=
  ⟨no_directory_selected_or_deleted.1 [dirD, wfA, wfB] 100
      (DEFAULT_REMOVING_STRATEGY_fn [dirD, wfA, wfB] 100)
      (DEFAULT_REMOVING_STRATEGY_fn_admissible _ _) wfA (by decide),
    no_directory_selected_or_deleted.2.2 (fun _ => false) [dirD, wfB] wfB (by decide)⟩

/-- C2 refuted as stated: the `uint64` accumulations wrap.  The folder
`bfCex` is exactly what `scan` produces for the listing `[cexA, cexB]`
(sizes `2^63` and `2^63+5`, so `CurrentSize = 5` after wrapping) with quota
3.  The default strategy then selects `[cexA]` (an admissible sorted order
is the listing itself), deletion succeeds, yet afterwards
`CurrentSize = 5 - 2^63 (mod 2^64) = 2^63+5 > 3 = MaxSize`, and `cexB`, a
non-directory file, was never selected — both disjuncts of the claim fail. -/
theorem check_reaches_quota_cex :
    DEFAULT_REMOVING_STRATEGY_rel [cexA, cexB]
        (wsub bfCex.CurrentSize bfCex.MaxSize) [cexA]
    ∧ (bfCex.check evBase).err = false
    ∧ (bfCex.check evBase).rms = [cexA]
    ∧ ¬ ((bfCex.check evBase).folder.CurrentSize ≤ bfCex.MaxSize)
    ∧ ¬ (∀ f ∈ nonDir [cexA, cexB], f ∈ (bfCex.check evBase).rms) := by
  refine ⟨⟨[cexA, cexB], ⟨List.Perm.refl _, by decide⟩, by decide⟩,
    by decide, by decide, by decide, by decide⟩

/-- C2 (amended): for an initialized folder whose `CurrentSize` is the
scanned total of its file list, PROVIDED the exact total of the
non-directory sizes does not overflow `uint64`, a `check` that returns no
error using a built-in strategy either brings `CurrentSize` under
`MaxSize` or has selected every non-directory file of the folder; and
`CurrentSize` is decremented by exactly the total size of the selected
files (the computed minimal front segment), never more. -/
theorem check_reaches_quota_or_exhausts_amended
    (bf : BroomFolder) (ev : BroomEnv) (l : List File)
    (strat : List File → Nat → List File)
    (hlist : bf.list = some l)
    (hmax : bf.MaxSize ≠ 0)
    (hcur : bf.CurrentSize = calculateFolderSize l)
    (hW : sizeSum (nonDir l) < W)
    (hstrat : ev.RemovingStrategy = some strat)
    (hadm : DEFAULT_REMOVING_STRATEGY_rel l (wsub bf.CurrentSize bf.MaxSize)
        (strat l (wsub bf.CurrentSize bf.MaxSize)) ∨
      NAME_BASED_REMOVING_STRATEGY_rel l (wsub bf.CurrentSize bf.MaxSize)
        (strat l (wsub bf.CurrentSize bf.MaxSize)))
    (hok : (bf.check ev).err = false) :
    ((bf.check ev).folder.CurrentSize ≤ bf.MaxSize
      ∨ ∀ f ∈ nonDir l, f ∈ (bf.check ev).rms)
    ∧ (bf.check ev).folder.CurrentSize
        = bf.CurrentSize - sizeSum ((bf.check ev).rms) := by
  have hcW : bf.CurrentSize = sizeSum (nonDir l) := by
    rw [hcur, calculateFolderSize_eq hW]
  by_cases hover : bf.MaxSize < bf.CurrentSize
  · obtain ⟨hrms, _, _, _, hfF⟩ := check_eq_of_over hlist hmax hover hstrat
    have hfold := hfF hok
    obtain ⟨s, k, hperm, hsum, hout, hk, hlow, hhigh⟩ :=
      strategy_output_facts hW hadm
    have hrmsEq : (bf.check ev).rms = s.take k := by rw [hrms, hout]
    have hndAll : ∀ f ∈ s.take k, f.IsDir = false := by
      intro f hf
      exact (strategy_output_nonDir hadm f (hout ▸ hf)).2
    have hsumTake : sizeSum (s.take k) ≤ bf.CurrentSize := by
      rw [hcW, ← hsum]; exact sizeSum_take_le s k
    have hcalc : calculateFolderSize (s.take k) = sizeSum (s.take k) := by
      rw [calculateFolderSize_eq_mod, nonDir_eq_self hndAll,
        Nat.mod_eq_of_lt (lt_of_le_of_lt hsumTake (by rw [hcW]; exact hW))]
    have hcurW : bf.CurrentSize < W := by rw [hcW]; exact hW
    have hb : wsub bf.CurrentSize bf.MaxSize = bf.CurrentSize - bf.MaxSize :=
      wsub_eq_sub (le_of_lt hover) hcurW
    have hnewEq : (bf.check ev).folder.CurrentSize
        = bf.CurrentSize - sizeSum (s.take k) := by
      rw [hfold]
      show wsub bf.CurrentSize (calculateFolderSize (strat l (wsub bf.CurrentSize bf.MaxSize)))
        = bf.CurrentSize - sizeSum (s.take k)
      rw [hout, hcalc]
      exact wsub_eq_sub hsumTake hcurW
    refine ⟨?_, by rw [hnewEq, hrmsEq]⟩
    by_cases hklen : k < s.length
    · left
      have hreach := hhigh hklen
      rw [hb] at hreach
      rw [hnewEq]
      omega
    · right
      have hkeq : k = s.length := by omega
      intro f hf
      rw [hrmsEq, hkeq, List.take_length]
      exact hperm.mem_iff.mpr hf
  · have hno : ¬ (bf.MaxSize ≠ 0 ∧ bf.MaxSize < bf.CurrentSize) :=
      fun hc => hover hc.2
    have hc := @check_eq_of_not_over bf ev l hlist hno
    rw [hc]
    refine ⟨Or.inl ?_, ?_⟩
    · dsimp only
      omega
    · dsimp only
      simp [sizeSum_nil]

theorem check_reaches_quota_or_exhausts_amended_witness :
    ((bfW.check evBase).folder.CurrentSize ≤ bfW.MaxSize
      ∨ ∀ f ∈ nonDir [wfA, wfB], f ∈ (bfW.check evBase).rms)
    ∧ (bfW.check evBase).folder.CurrentSize
        = bfW.CurrentSize - sizeSum ((bfW.check evBase).rms) :=
  check_reaches_quota_or_exhausts_amended bfW evBase [wfA, wfB]
    DEFAULT_REMOVING_STRATEGY_fn rfl (by decide) (by decide) (by decide) rfl
    (Or.inl (DEFAULT_REMOVING_STRATEGY_fn_admissible _ _)) (by decide)

/-- C3 refuted as stated: with files `[cexX, cexY, cexZ]` of `2^63` bytes
each and `bytesToFree = 2^64 - 1`, the default strategy returns all three
files (the `uint64` accumulator wraps to 0 after the second file and never
reaches `bytesToFree`), although the exact cumulative size of the first two
files, `2^64`, already reaches `bytesToFree` — the returned list is not the
smallest such front segment, and the exhaust case does not apply since the
exact total `3 * 2^63` also reaches `bytesToFree`. -/
theorem strategies_select_minimal_take_cex :
    DEFAULT_REMOVING_STRATEGY_rel [cexX, cexY, cexZ] (2 ^ 64 - 1) [cexX, cexY, cexZ]
    ∧ 2 ^ 64 - 1 ≤ sizeSum (nonDir [cexX, cexY, cexZ])
    ∧ 2 ^ 64 - 1 ≤ sizeSum ([cexX, cexY, cexZ].take 2)
    ∧ ¬ (∀ j, j < ([cexX, cexY, cexZ] : List File).length →
          sizeSum (([cexX, cexY, cexZ] : List File).take j) < 2 ^ 64 - 1) := by
  refine ⟨⟨[cexX, cexY, cexZ], ⟨List.Perm.refl _, by decide⟩, by decide⟩,
    by decide, by decide, by decide⟩

/-- C3 (amended): PROVIDED the exact total of the non-directory sizes does
not overflow `uint64`, every output either built-in strategy can return for
a strictly positive `bytesToFree` consists of non-directory input files
only; when the non-directory total reaches `bytesToFree` the output reaches
`bytesToFree` while every strictly shorter front segment stays below it
(the smallest prefix under the strategy's sort order); and when the total
is below `bytesToFree` the output is exactly all non-directory files (as a
permutation — in the strategy's sort order), with no error. -/
theorem strategies_select_minimal_take_amended
    (l out : List File) (b : Nat)
    (hb : 0 < b)
    (hW : sizeSum (nonDir l) < W)
    (hadm : DEFAULT_REMOVING_STRATEGY_rel l b out ∨
      NAME_BASED_REMOVING_STRATEGY_rel l b out) :
    (∀ f ∈ out, f ∈ l ∧ f.IsDir = false)
    ∧ (b ≤ sizeSum (nonDir l) →
        b ≤ sizeSum out ∧ ∀ j, j < out.length → sizeSum (out.take j) < b)
    ∧ (sizeSum (nonDir l) < b → out.Perm (nonDir l)) := by
  obtain ⟨s, k, hperm, hsum, hout, hk, hlow, hhigh⟩ :=
    strategy_output_facts hW hadm
  have houtlen : out.length = k := by
    rw [hout, List.length_take]
    omega
  have houttake : ∀ j, j ≤ k → out.take j = s.take j := by
    intro j hj
    rw [hout, List.take_take, min_eq_left hj]
  refine ⟨strategy_output_nonDir hadm, ?_, ?_⟩
  · intro hble
    constructor
    · by_cases hklen : k < s.length
      · rw [hout]
        exact hhigh hklen
      · have hkeq : k = s.length := by omega
        rw [hout, hkeq, List.take_length, hsum]
        exact hble
    · intro j hj
      rw [houttake j (by omega)]
      exact hlow j (by omega)
  · intro hlt
    have hkeq : k = s.length := by
      by_contra hne
      have hklen : k < s.length := by omega
      have := hhigh hklen
      have hle := sizeSum_take_le s k
      omega
    rw [hout, hkeq, List.take_length]
    exact hperm

theorem strategies_select_minimal_take_amended_witness :
    (∀ f ∈ NAME_BASED_REMOVING_STRATEGY_fn [dirD, wfB, wfA] 7,
        f ∈ [dirD, wfB, wfA] ∧ f.IsDir = false)
    ∧ (7 ≤ sizeSum (nonDir [dirD, wfB, wfA]) →
        7 ≤ sizeSum (NAME_BASED_REMOVING_STRATEGY_fn [dirD, wfB, wfA] 7)
        ∧ ∀ j, j < (NAME_BASED_REMOVING_STRATEGY_fn [dirD, wfB, wfA] 7).length →
            sizeSum ((NAME_BASED_REMOVING_STRATEGY_fn [dirD, wfB, wfA] 7).take j) < 7)
    ∧ (sizeSum (nonDir [dirD, wfB, wfA]) < 7 →
        (NAME_BASED_REMOVING_STRATEGY_fn [dirD, wfB, wfA] 7).Perm
          (nonDir [dirD, wfB, wfA])) :=
  strategies_select_minimal_take_amended [dirD, wfB, wfA]
    (NAME_BASED_REMOVING_STRATEGY_fn [dirD, wfB, wfA] 7) 7 (by decide) (by decide)
    (Or.inr (NAME_BASED_REMOVING_STRATEGY_fn_admissible _ _))

/-- C10 refuted as stated: on the scanned listing `[cexA, cexB]` (sizes
`2^63` and `2^63+5`), `CurrentSize = calculateFolderSize [cexA, cexB] = 5`
because the `uint64` total wraps, while the default strategy (quota 3,
`bytesToFree = 2`) selects `[cexA]` whose total `2^63` exceeds
`CurrentSize` — the unsigned subtraction `CurrentSize -= 2^63` wraps below
zero. -/
theorem eviction_le_currentSize_cex :
    DEFAULT_REMOVING_STRATEGY_rel [cexA, cexB]
        (wsub (calculateFolderSize [cexA, cexB]) 3) [cexA]
    ∧ ¬ (calculateFolderSize [cexA] ≤ calculateFolderSize [cexA, cexB]) := by
  exact ⟨⟨[cexA, cexB], ⟨List.Perm.refl _, by decide⟩, by decide⟩, by decide⟩

/-- C10 (amended): PROVIDED the exact total of the scanned non-directory
sizes does not overflow `uint64`, the total size of the files a built-in
strategy selects for `bytesToFree = CurrentSize - MaxSize` is at most
`CurrentSize = calculateFolderSize(list)`, so the unsigned subtraction
`CurrentSize -= calculateFolderSize(selected)` in `check` equals the exact
difference — it never wraps below zero and `CurrentSize` remains a valid
byte count. -/
theorem eviction_le_currentSize_amended
    (l out : List File) (c m : Nat)
    (hc : c = calculateFolderSize l)
    (hW : sizeSum (nonDir l) < W)
    (hm : m < c)
    (hadm : DEFAULT_REMOVING_STRATEGY_rel l (wsub c m) out ∨
      NAME_BASED_REMOVING_STRATEGY_rel l (wsub c m) out) :
    calculateFolderSize out ≤ c
    ∧ wsub c (calculateFolderSize out) = c - calculateFolderSize out := by
  have hcW : c = sizeSum (nonDir l) := by rw [hc, calculateFolderSize_eq hW]
  obtain ⟨s, k, hperm, hsum, hout, hk, _, _⟩ := strategy_output_facts hW hadm
  have hndAll : ∀ f ∈ out, f.IsDir = false :=
    fun f hf => (strategy_output_nonDir hadm f hf).2
  have hsumOut : sizeSum out ≤ c := by
    rw [hout, hcW, ← hsum]
    exact sizeSum_take_le s k
  have hcalc : calculateFolderSize out = sizeSum out := by
    rw [calculateFolderSize_eq_mod, nonDir_eq_self hndAll,
      Nat.mod_eq_of_lt (lt_of_le_of_lt hsumOut (by rw [hcW]; exact hW))]
  rw [hcalc]
  exact ⟨hsumOut, wsub_eq_sub hsumOut (by rw [hcW]; exact hW)⟩

/-- C5 refuted as stated: when `fsnotify.NewWatcher()` fails after a
successful scan, `initialize` returns the error but leaves `bf.list`
populated — the folder reports `isInitialized() = true` with no watcher, so
it is NOT torn down (and every later `initialize` will no-op, never
retrying the subscription). -/
theorem teardown_on_failure_cex :
    (bfUninit.initFolder evWatchFail).2 = some .watcherFailed
    ∧ (bfUninit.initFolder evWatchFail).1.isInitialized = true := by
  decide

/-- C5 (amended): when `initialize()` fails, no open change subscription is
ever left behind, and the folder is fully torn down if the failure came
from the scan or from the quota check; but a failure creating the watcher
or subscribing the location leaves `fileSet` populated (the folder still
reports `isInitialized()` true), contrary to the original claim. -/
theorem teardown_on_failure_amended
    (bf : BroomFolder) (ev : BroomEnv) (e : BroomError)
    (h : (bf.initFolder ev).2 = some e) :
    (e = .scanFailed → (bf.initFolder ev).1 = bf ∧ bf.list = none)
    ∧ (e = .watcherFailed →
        ((bf.initFolder ev).1.list).isSome = true
        ∧ (bf.initFolder ev).1.watcher = bf.watcher)
    ∧ (e = .watchAddFailed →
        ((bf.initFolder ev).1.list).isSome = true
        ∧ (bf.initFolder ev).1.watcher = some false)
    ∧ (e = .deleteFailed →
        (bf.initFolder ev).1.list = none
        ∧ (bf.initFolder ev).1.watcher ≠ some true) := by
  by_cases hini : bf.isInitialized = true
  · unfold BroomFolder.initFolder at h
    rw [if_pos hini] at h
    simp at h
  · have hlnone : bf.list = none := not_initialized_list_none hini
    unfold BroomFolder.initFolder at h ⊢
    rw [if_neg hini] at h ⊢
    rcases hcol : ev.collect bf.Location with u | files
    · have hscan : bf.scan ev = (bf, some .scanFailed) := by
        unfold BroomFolder.scan; rw [hcol]
      rw [hscan] at h ⊢
      dsimp only at h ⊢
      obtain rfl : e = .scanFailed := (Option.some.inj h).symm
      refine ⟨fun _ => ⟨rfl, hlnone⟩, ?_, ?_, ?_⟩ <;> (intro hc; cases hc)
    · have hscan : bf.scan ev =
          ({ bf with CurrentSize := calculateFolderSize files, list := some (sortFilesByCreateTime files) }, none) := by
        unfold BroomFolder.scan; rw [hcol]
      rw [hscan] at h ⊢
      dsimp only at h ⊢
      by_cases hnw : ev.newWatcherOk = true
      · simp only [hnw, Bool.not_true, Bool.false_eq_true, if_false] at h ⊢
        by_cases hwa : ev.watchAddOk bf.Location = true
        · simp only [hwa, Bool.not_true, Bool.false_eq_true, if_false] at h ⊢
          rw [fetchMetadata_of_initialized (by simp [BroomFolder.isInitialized])]
            at h ⊢
          by_cases herr :
              (BroomFolder.check { bf with CurrentSize := calculateFolderSize files, list := some (sortFilesByCreateTime files), watcher := some true } ev).err = true
          · rw [if_pos herr] at h ⊢
            dsimp only at h ⊢
            obtain rfl : e = .deleteFailed := (Option.some.inj h).symm
            refine ⟨?_, ?_, ?_, fun _ => ?_⟩
            · intro hc; cases hc
            · intro hc; cases hc
            · intro hc; cases hc
            · obtain ⟨hcl, hcw⟩ := check_preserves_list_watcher { bf with CurrentSize := calculateFolderSize files, list := some (sortFilesByCreateTime files), watcher := some true } ev
              obtain ⟨hdl, hdw⟩ := @deInit_of_initialized
                ((BroomFolder.check { bf with CurrentSize := calculateFolderSize files, list := some (sortFilesByCreateTime files), watcher := some true } ev).folder)
                (by rw [hcl]; rfl)
              refine ⟨hdl, ?_⟩
              rw [hdw, hcw]
              simp
          · rw [if_neg herr] at h
            simp at h
        · have hwa' : ev.watchAddOk bf.Location = false := by
            cases hb : ev.watchAddOk bf.Location
            · rfl
            · exact absurd hb hwa
          simp only [hwa', Bool.not_false, if_true] at h ⊢
          obtain rfl : e = .watchAddFailed := (Option.some.inj h).symm
          refine ⟨?_, ?_, fun _ => ⟨by simp, by simp⟩, ?_⟩ <;> (intro hc; cases hc)
      · have hnw' : ev.newWatcherOk = false := by
          cases hb : ev.newWatcherOk
          · rfl
          · exact absurd hb hnw
        simp only [hnw', Bool.not_false, if_true] at h ⊢
        obtain rfl : e = .watcherFailed := (Option.some.inj h).symm
        refine ⟨?_, fun _ => ⟨by simp, by simp⟩, ?_, ?_⟩ <;> (intro hc; cases hc)

theorem teardown_on_failure_amended_witness :
    ((BroomError.scanFailed = BroomError.scanFailed →
        (bfUninit.initFolder evScanFail).1 = bfUninit ∧ bfUninit.list = none)
    ∧ (BroomError.scanFailed = BroomError.watcherFailed →
        ((bfUninit.initFolder evScanFail).1.list).isSome = true
        ∧ (bfUninit.initFolder evScanFail).1.watcher = bfUninit.watcher)
    ∧ (BroomError.scanFailed = BroomError.watchAddFailed →
        ((bfUninit.initFolder evScanFail).1.list).isSome = true
        ∧ (bfUninit.initFolder evScanFail).1.watcher = some false)
    ∧ (BroomError.scanFailed = BroomError.deleteFailed →
        (bfUninit.initFolder evScanFail).1.list = none
        ∧ (bfUninit.initFolder evScanFail).1.watcher ≠ some true)) :=
  teardown_on_failure_amended bfUninit evScanFail .scanFailed (by decide)

/-- C6 refuted as stated: with every `os.Remove` failing and a callback
configured, `check` returns the deletion error AND invokes the on-remove
callback — the callback is not reserved to successful deletions
(internal.go lines 226-229: the callback runs before `err` is examined). -/
theorem callback_on_failed_delete_cex :
    (bfW.check evDelFail).err = true ∧ (bfW.check evDelFail).cbInvoked = true := by
  decide

/-- C6 (amended): whenever eviction runs, the on-remove callback is invoked
exactly when one is configured — regardless of the deletion outcome; only
on a successful deletion is `CurrentSize` decremented (by the selected
files' total size); on a deletion error the error is returned and the
folder, `CurrentSize` included, is left unchanged. -/
theorem callback_and_size_adjust_amended
    (bf : BroomFolder) (ev : BroomEnv) (l : List File)
    (strat : List File → Nat → List File)
    (hlist : bf.list = some l) (hmax : bf.MaxSize ≠ 0)
    (hover : bf.MaxSize < bf.CurrentSize)
    (hstrat : ev.RemovingStrategy = some strat) :
    (bf.check ev).cbInvoked = ev.onRemoveCb
    ∧ ((bf.check ev).err = false →
        (bf.check ev).folder.CurrentSize =
          wsub bf.CurrentSize (calculateFolderSize ((bf.check ev).rms)))
    ∧ ((bf.check ev).err = true → (bf.check ev).folder = bf) := by
  obtain ⟨hrms, _, hcb, hfT, hfF⟩ := check_eq_of_over hlist hmax hover hstrat
  refine ⟨hcb, ?_, hfT⟩
  intro hok
  rw [hfF hok, hrms]

theorem callback_and_size_adjust_amended_witness :
    (bfW.check evBase).cbInvoked = evBase.onRemoveCb
    ∧ ((bfW.check evBase).err = false →
        (bfW.check evBase).folder.CurrentSize =
          wsub bfW.CurrentSize (calculateFolderSize ((bfW.check evBase).rms)))
    ∧ ((bfW.check evBase).err = true → (bfW.check evBase).folder = bfW) :=
  callback_and_size_adjust_amended bfW evBase [wfA, wfB]
    DEFAULT_REMOVING_STRATEGY_fn rfl (by decide) (by decide) rfl

theorem eviction_le_currentSize_amended_witness :
    calculateFolderSize (DEFAULT_REMOVING_STRATEGY_fn [wfA, wfB]
        (wsub (calculateFolderSize [wfA, wfB]) 8))
      ≤ calculateFolderSize [wfA, wfB]
    ∧ wsub (calculateFolderSize [wfA, wfB])
        (calculateFolderSize (DEFAULT_REMOVING_STRATEGY_fn [wfA, wfB]
          (wsub (calculateFolderSize [wfA, wfB]) 8)))
      = calculateFolderSize [wfA, wfB]
        - calculateFolderSize (DEFAULT_REMOVING_STRATEGY_fn [wfA, wfB]
            (wsub (calculateFolderSize [wfA, wfB]) 8)) :=
  eviction_le_currentSize_amended [wfA, wfB] _ (calculateFolderSize [wfA, wfB]) 8
    rfl (by decide) (by decide)
    (Or.inl (DEFAULT_REMOVING_STRATEGY_fn_admissible _ _))

end Broom
